import Mathlib

/-!
# Verification of the launchstack resource registry and provisioning orchestrator

Shallow embedding of `backend/app/utils/aegra_json.py`,
`backend/app/utils/filesystem.py`, `backend/app/services/agent.py` and
`backend/app/services/stack.py`, together with proofs of the specified
properties of the registry write algorithm, slug detection and the
stack/agent lifecycle tasks.
-/

set_option autoImplicit false

namespace LaunchStack

/-- JSON values, as produced by Python's `json.loads`. -/
inductive JVal where
  | jnull
  | jbool (b : Bool)
  | jnum (n : Int)
  | jstr (s : String)
  | jarr (xs : List JVal)
  | jobj (kv : List (String × JVal))
deriving Repr

mutual

/-- Structural equality test on JSON values (Python `==` on parsed JSON). -/
def JVal.beq : JVal → JVal → Bool
  | .jnull, .jnull => true
  | .jbool a, .jbool b => a == b
  | .jnum a, .jnum b => a == b
  | .jstr a, .jstr b => a == b
  | .jarr xs, .jarr ys => JVal.beqArr xs ys
  | .jobj kv, .jobj kw => JVal.beqObj kv kw
  | _, _ => false

def JVal.beqArr : List JVal → List JVal → Bool
  | [], [] => true
  | x :: xs, y :: ys => JVal.beq x y && JVal.beqArr xs ys
  | _, _ => false

def JVal.beqObj : List (String × JVal) → List (String × JVal) → Bool
  | [], [] => true
  | (k, v) :: xs, (k', v') :: ys => k == k' && JVal.beq v v' && JVal.beqObj xs ys
  | _, _ => false

end

instance : BEq JVal := ⟨JVal.beq⟩

/-- Python dict membership test `k in d` on an association list. -/
def hasKey (l : List (String × JVal)) (k : String) : Bool :=
  l.any (fun p => p.1 == k)

/-- Python dict lookup `d[k]` (first matching entry). -/
def lookupKey (l : List (String × JVal)) (k : String) : Option JVal :=
  match l with
  | [] => none
  | (k', v) :: rest => if k' == k then some v else lookupKey rest k

/-- Python dict assignment `d[k] = v`: replace in place if the key is
present, append otherwise. -/
def setKey (l : List (String × JVal)) (k : String) (v : JVal) :
    List (String × JVal) :=
  match l with
  | [] => [(k, v)]
  | (k', v') :: rest =>
    if k' == k then (k, v) :: rest else (k', v') :: setKey rest k v

/-- Python dict deletion `del d[k]`: drop the entry with key `k`. -/
def delKey (l : List (String × JVal)) (k : String) : List (String × JVal) :=
  l.filter (fun p => p.1 != k)

/-- Python substring test `needle in haystack` on strings. -/
def strContains (haystack needle : String) : Bool :=
  (haystack.splitOn needle).length > 1

/-- The document `{"graphs": {}}` that `ensure_aegra_json_exists` writes. -/
def emptyDoc : JVal := .jobj [("graphs", .jobj [])]

/-- Observable state of the canonical `aegra.json` file: absent, present but
whitespace-only, present but not parseable as JSON, or present with a parsed
JSON document. The serializer (`json.dump` with fixed options) is
deterministic, so a parsed document determines the bytes the module itself
ever writes. -/
inductive FileState where
  | missing
  | blank
  | malformed
  | doc (j : JVal)
deriving Repr

/-- State of the sibling temp file used by the atomic write:
absent, holding a torn/incomplete serialization, or holding the complete
serialization of a document. -/
inductive TempFile where
  | absent
  | torn
  | full (j : JVal)
deriving Repr

/-- Filesystem state visible to the registry module: whether the data
directory exists, the canonical file and the temp file. -/
structure RegFS where
  dirExists : Bool
  canonical : FileState
  temp : TempFile
deriving Repr

/-- Errors raised by the registry module, mirroring the Python exception
classes at each `raise` site. -/
inductive RegErr where
  /-- `json.JSONDecodeError`: the canonical file is malformed (corruption). -/
  | jsonDecodeError
  /-- `TypeError` from operating on a non-dict where a dict is needed. -/
  | pyTypeError
  /-- `AttributeError` (e.g. `.get` on a non-dict). -/
  | pyAttributeError
  /-- `ValueError(msg)`. -/
  | valueError (msg : String)
  /-- generic `Exception(msg)` — in particular the lock-timeout raises. -/
  | pyException (msg : String)
  /-- injected I/O failure (`OSError` from open/write/fsync/replace). -/
  | ioError
deriving Repr

/-- `ensure_aegra_json_exists`: create the directory, then create the file
with `{"graphs": {}}` if missing, or rewrite it if present but empty.
A malformed file is left alone (the guarded block only reads text). -/
def ensure_aegra_json_exists (fs : RegFS) : RegFS :=
  { fs with
    dirExists := true
    canonical :=
      match fs.canonical with
      | .missing => .doc emptyDoc
      | .blank => .doc emptyDoc
      | s => s }

/-- `_read_json_unlocked`: parse the canonical file; missing or empty file
yields `{"graphs": {}}`; on a parsed dict the `"graphs"` key is inserted
(empty) when absent. Non-dict top-level values follow Python membership
semantics for `"graphs" not in data` / `data["graphs"] = {}`. -/
def read_json_unlocked (st : FileState) : Except RegErr JVal :=
  match st with
  | .missing => .ok emptyDoc
  | .blank => .ok emptyDoc
  | .malformed => .error .jsonDecodeError
  | .doc j =>
    match j with
    | .jobj kv =>
      if hasKey kv "graphs" then .ok (.jobj kv)
      else .ok (.jobj (setKey kv "graphs" (.jobj [])))
    | .jarr xs =>
      if xs.any (fun x => x == .jstr "graphs") then .ok (.jarr xs)
      else .error .pyTypeError
    | .jstr s =>
      if strContains s "graphs" then .ok (.jstr s)
      else .error .pyTypeError
    | _ => .error .pyTypeError

/-- Fault-injection points of the atomic write algorithm. -/
structure WriteFaults where
  serializeFails : Bool
  fsyncFails : Bool
  reparseFails : Bool
  renameFails : Bool
deriving Repr

def noFaults : WriteFaults := ⟨false, false, false, false⟩

/-- `_write_aegra_json_unlocked data`: reject data lacking a `"graphs"` key
with `ValueError`; otherwise ensure the file exists, serialize the document
to a sibling temp file, fsync, re-parse the temp file, and atomically rename
it over the canonical path; on any failure the temp file is unlinked and the
error re-raised. The `data` argument is a dict per the source annotation. -/
def write_aegra_json_unlocked (f : WriteFaults) (data : List (String × JVal))
    (fs : RegFS) : Except RegErr Unit × RegFS :=
  if ¬ hasKey data "graphs" then
    (.error (.valueError "Data must have 'graphs' key"), fs)
  else
    let fs1 := ensure_aegra_json_exists fs
    if f.serializeFails then
      (.error .ioError, { fs1 with temp := .absent })
    else if f.fsyncFails then
      (.error .ioError, { fs1 with temp := .absent })
    else if f.reparseFails then
      (.error (.pyException "Temp file contains invalid JSON"),
       { fs1 with temp := .absent })
    else if f.renameFails then
      (.error .ioError, { fs1 with temp := .absent })
    else
      (.ok (), { fs1 with canonical := .doc (.jobj data), temp := .absent })

/-- `write_aegra_json`: acquire the lock with a 30s bound, then run the
unlocked write. `lockWait` is the time needed to obtain the lock. -/
def write_aegra_json (lockWait : Nat) (f : WriteFaults)
    (data : List (String × JVal)) (fs : RegFS) : Except RegErr Unit × RegFS :=
  if lockWait > 30 then
    (.error (.pyException "Timeout acquiring lock to write aegra.json"), fs)
  else
    write_aegra_json_unlocked f data fs

/-- `read_aegra_json`: ensure the file exists (before any locking), then,
under a 10s-bounded lock when `useLock`, parse it. -/
def read_aegra_json (useLock : Bool) (lockWait : Nat) (fs : RegFS) :
    Except RegErr JVal × RegFS :=
  let fs1 := ensure_aegra_json_exists fs
  if useLock then
    if lockWait > 10 then
      (.error (.pyException "Timeout acquiring lock to read aegra.json"), fs1)
    else
      (read_json_unlocked fs1.canonical, fs1)
  else
    (read_json_unlocked fs1.canonical, fs1)

/-- `update_graph_entry graph_id graph_path`: under a 30s-bounded lock, read
the document, set `data["graphs"][graph_id] = graph_path`, and write it back
atomically. -/
def update_graph_entry (lockWait : Nat) (f : WriteFaults)
    (graph_id graph_path : String) (fs : RegFS) :
    Except RegErr Unit × RegFS :=
  if lockWait > 30 then
    (.error (.pyException "Timeout acquiring lock to update aegra.json"), fs)
  else
    match read_json_unlocked fs.canonical with
    | .error e => (.error e, fs)
    | .ok data =>
      match data with
      | .jobj kv =>
        match lookupKey kv "graphs" with
        | some (.jobj g) =>
          let g' := setKey g graph_id (.jstr graph_path)
          write_aegra_json_unlocked f (setKey kv "graphs" (.jobj g')) fs
        | some _ => (.error .pyTypeError, fs)
        | none => (.error .pyTypeError, fs)
      | _ => (.error .pyTypeError, fs)

/-- `remove_graph_entry graph_id`: under a 30s-bounded lock, read the
document; if `graph_id in data.get("graphs", {})`, delete it and write back;
otherwise do nothing at all. -/
def remove_graph_entry (lockWait : Nat) (f : WriteFaults) (graph_id : String)
    (fs : RegFS) : Except RegErr Unit × RegFS :=
  if lockWait > 30 then
    (.error (.pyException "Timeout acquiring lock to remove from aegra.json"),
     fs)
  else
    match read_json_unlocked fs.canonical with
    | .error e => (.error e, fs)
    | .ok data =>
      match data with
      | .jobj kv =>
        match lookupKey kv "graphs" with
        | some (.jobj g) =>
          if hasKey g graph_id then
            write_aegra_json_unlocked f
              (setKey kv "graphs" (.jobj (delKey g graph_id))) fs
          else
            (.ok (), fs)
        | some (.jstr s) =>
          if strContains s graph_id then (.error .pyTypeError, fs)
          else (.ok (), fs)
        | some (.jarr xs) =>
          if xs.any (fun x => x == .jstr graph_id) then
            (.error .pyTypeError, fs)
          else (.ok (), fs)
        | some _ => (.error .pyTypeError, fs)
        | none => (.ok (), fs)
      | _ => (.error .pyAttributeError, fs)

/-- The structural checks of `validate_aegra_json` on the outcome of the
unlocked read: the parsed value must be a dict, hold a `"graphs"` key, and
its `"graphs"` value must be a dict; a `json.JSONDecodeError` reports
invalid JSON and any other exception a read error. -/
def validateVerdict : Except RegErr JVal → Bool × String
  | .error .jsonDecodeError => (false, "Invalid JSON")
  | .error _ => (false, "Error reading file")
  | .ok data =>
    match data with
    | .jobj kv =>
      if ¬ hasKey kv "graphs" then (false, "Missing 'graphs' key")
      else
        match lookupKey kv "graphs" with
        | some (.jobj _) => (true, "")
        | _ => (false, "'graphs' is not a dictionary")
    | _ => (false, "JSON is not a dictionary")

/-- `validate_aegra_json`: report `(False, reason)` for a missing file;
otherwise read without a lock (which runs `ensure_aegra_json_exists` first)
and apply the structural checks to the result. -/
def validate_aegra_json (fs : RegFS) : (Bool × String) × RegFS :=
  match fs.canonical with
  | .missing => ((false, "File does not exist"), fs)
  | _ =>
    let p := read_aegra_json false 0 fs
    (validateVerdict p.1, p.2)

/-! ## Extracted directory trees and slug detection (`filesystem.py`) -/

/-- A filesystem entry in an extracted archive: a file or a directory with
its children (children listed in scandir order). -/
inductive FTree where
  | file (name : String)
  | dir (name : String) (children : List FTree)
deriving Repr

/-- Name of an entry. -/
def entryName : FTree → String
  | .file n => n
  | .dir n _ => n

/-- The matches `glob` yields within one directory for the pattern
`graph.py` (any entry with that name), as single-component relative paths. -/
def matchesHere (cs : List FTree) : List (List String) :=
  (cs.filter (fun e => entryName e == "graph.py")).map (fun e => [entryName e])

/-- Matches of `rglob("graph.py")` strictly below the given entries:
`Path.rglob` walks directories top-down (each directory before its
subdirectories, siblings in scandir order) and yields the matches inside
each directory it visits. -/
def rglobChildren : List FTree → List (List String)
  | [] => []
  | .file _ :: rest => rglobChildren rest
  | .dir n cs :: rest =>
    ((matchesHere cs ++ rglobChildren cs).map (fun p => n :: p))
      ++ rglobChildren rest

/-- All matches of `extracted_path.rglob("graph.py")`, as paths relative to
the extraction root, in the order `rglob` yields them. -/
def rglobRoot (cs : List FTree) : List (List String) :=
  matchesHere cs ++ rglobChildren cs

/-- `[d for d in extracted_path.iterdir() if d.is_dir()]` — names of the
top-level directories. -/
def topLevelDirs (cs : List FTree) : List String :=
  cs.filterMap (fun e =>
    match e with
    | .dir n _ => some n
    | .file _ => none)

/-- `detect_agent_slug`: take the first `graph.py` found by `rglob`.  If its
parent is the extraction root, return the single top-level directory's name
when exactly one exists, else the default `"agent"`.  Otherwise walk up to
the extraction root's direct child on the path and return its name.  No
match raises `ValueError`. -/
def detect_agent_slug (cs : List FTree) : Except String String :=
  match rglobRoot cs with
  | [] => .error "graph.py not found in extracted zip"
  | p :: _ =>
    match p.dropLast with
    | [] =>
      match topLevelDirs cs with
      | [t] => .ok t
      | _ => .ok "agent"
    | c :: _ => .ok c

/-- `Path.exists()` for a relative path below a tree. -/
def existsPath : List FTree → List String → Bool
  | _, [] => true
  | [], _ => false
  | e :: es, [n] => (entryName e == n) || existsPath es [n]
  | e :: es, n :: rest =>
    (match e with
     | .dir m cs => m == n && existsPath cs rest
     | .file _ => false) || existsPath es (n :: rest)

/-! ## Agent creation lifecycle task (`services/agent.py`) -/

/-- Inputs of one `complete_agent_creation` run: the agent row fetched at
the start, the uploaded temp file, the archive's content as a tree, and
fault-injection for cleanup and the registry update. -/
structure AgentRunInput where
  agentFound : Bool
  agentStatus : String
  stackId : String
  agentId : String
  tempExists : Bool
  tempSize : Nat
  zipValid : Bool
  zipTree : List FTree
  cleanupFails : Bool
  lockWait : Nat
  faults : WriteFaults

/-- Observable outcome of one `complete_agent_creation` run. -/
structure AgentRunResult where
  /-- the agent's status after the run (`none` when no agent row exists). -/
  finalStatus : Option String
  /-- the registry filesystem after the run. -/
  reg : RegFS
  /-- whether the per-agent directory exists after the run. -/
  agentDirExists : Bool
  /-- whether `delete_agent_directory` was attempted. -/
  cleanupAttempted : Bool
  /-- whether an exception escaped the background task. -/
  raised : Bool

/-- The `except` handler of the creation task: set status `failed`, commit,
then best-effort `delete_agent_directory` (its own failure swallowed). -/
def agentFailOutcome (cleanupFails : Bool) (fs : RegFS) : AgentRunResult :=
  { finalStatus := some "failed"
    reg := fs
    agentDirExists := cleanupFails
    cleanupAttempted := true
    raised := false }

/-- `complete_agent_creation`: fetch the agent (skip when absent or not in
`creating`), then create the directory, copy and check the uploaded zip,
extract it, detect the slug, compute `graph_id`/`graph_path`, verify the
entry file at `extracted/<slug>/graph.py`, `update_graph_entry`, and
`validate_aegra_json`; on success set status `ready`.  Any step failure
lands in the `except` handler. -/
def complete_agent_creation (inp : AgentRunInput) (fs : RegFS) (dir0 : Bool) :
    AgentRunResult :=
  if ¬ inp.agentFound then ⟨none, fs, dir0, false, false⟩
  else if inp.agentStatus != "creating" then
    ⟨some inp.agentStatus, fs, dir0, false, false⟩
  else if ¬ inp.tempExists then agentFailOutcome inp.cleanupFails fs
  else if inp.tempSize == 0 then agentFailOutcome inp.cleanupFails fs
  else if ¬ inp.zipValid then agentFailOutcome inp.cleanupFails fs
  else
    match detect_agent_slug inp.zipTree with
    | .error _ => agentFailOutcome inp.cleanupFails fs
    | .ok slug =>
      let graph_id := inp.stackId ++ "__" ++ inp.agentId
      let graph_path := "./graphs/" ++ inp.stackId ++ "/agents/"
        ++ inp.agentId ++ "/extracted/" ++ slug ++ "/graph.py:graph"
      if ¬ existsPath inp.zipTree [slug, "graph.py"] then
        agentFailOutcome inp.cleanupFails fs
      else
        match update_graph_entry inp.lockWait inp.faults graph_id graph_path
            fs with
        | (.error _, fs1) => agentFailOutcome inp.cleanupFails fs1
        | (.ok _, fs1) =>
          match validate_aegra_json fs1 with
          | ((true, _), fs2) => ⟨some "ready", fs2, true, false, false⟩
          | ((false, _), fs2) => agentFailOutcome inp.cleanupFails fs2

/-! ## Stack deletion lifecycle task (`services/stack.py`) -/

/-- An agent row seen by stack deletion, with fault injection for its
`remove_graph_entry` call. -/
structure AgentRow where
  agentId : String
  graphId : Option String
  lockWait : Nat
  faults : WriteFaults

/-- External actions attempted by the stack deletion task, in order. -/
inductive DelAction where
  | removeRegistryEntry (gid : String)
  | validateRegistry
  | deleteAgentDir (aid : String)
  | deleteNamespace (n : String)
  | deleteStackDir (sid : String)
  | deleteDbRow (sid : String)
deriving Repr, DecidableEq

/-- The per-agent loop of `complete_stack_deletion`: for each agent with a
`graph_id`, attempt `remove_graph_entry`; errors are caught and logged and
the loop continues. Returns the attempted actions and the registry state. -/
def stackDelLoop : List AgentRow → RegFS → List DelAction × RegFS
  | [], fs => ([], fs)
  | a :: rest, fs =>
    match a.graphId with
    | none => stackDelLoop rest fs
    | some g =>
      let r := remove_graph_entry a.lockWait a.faults g fs
      let t := stackDelLoop rest r.2
      (.removeRegistryEntry g :: t.1, t.2)

/-- Inputs of one `complete_stack_deletion` run. -/
structure StackDelInput where
  stackFound : Bool
  stackId : String
  nsName : Option String
  agents : List AgentRow
  dbDeleteFails : Bool

/-- Observable outcome of one `complete_stack_deletion` run. -/
structure StackDelResult where
  /-- the external actions attempted, in order. -/
  trace : List DelAction
  /-- the registry filesystem after the run. -/
  reg : RegFS
  /-- whether the stack's database row was removed. -/
  dbRowRemoved : Bool
  /-- the stack's status when its row survives the run. -/
  stackStatus : Option String

/-- `complete_stack_deletion`: fetch the stack and its agents; loop over the
agents removing registry entries (best-effort); validate the registry; then
submit namespace deletion when a namespace is recorded, delete the stack
directory, and delete the database row last.  Namespace and directory
deletion failures are caught and the run continues, so they do not change
the attempted-action trace. -/
def complete_stack_deletion (inp : StackDelInput)
    (_nsDeleteFails _dirDeleteFails : Bool) (fs : RegFS) : StackDelResult :=
  if ¬ inp.stackFound then ⟨[], fs, false, none⟩
  else
    let lp := stackDelLoop inp.agents fs
    let v := validate_aegra_json lp.2
    let tr := lp.1 ++ [.validateRegistry]
      ++ (match inp.nsName with
          | some n => [.deleteNamespace n]
          | none => [])
      ++ [.deleteStackDir inp.stackId, .deleteDbRow inp.stackId]
    if inp.dbDeleteFails then ⟨tr, v.2, false, some "failed"⟩
    else ⟨tr, v.2, true, none⟩

/-! ## Stack creation lifecycle task (`services/stack.py`) -/

/-- Inputs of one `complete_stack_creation` run: the stack row, the
configured environment, and which external steps fail. -/
structure StackCreateInput where
  stackFound : Bool
  nsName : Option String
  environment : String
  nsCreateFails : Bool
  deployFails : Bool
  storageFails : Bool

/-- `complete_stack_creation`: create the namespace, deploy the backing
datastore workload, create the stack directory, then mark `ready`.  In the
`development` environment, namespace-creation and workload-deployment
failures are tolerated and the run continues; a storage (directory
creation) failure always marks the stack `failed`.  Returns the stack's
final status (`none` when no stack row exists). -/
def complete_stack_creation (inp : StackCreateInput) : Option String :=
  if ¬ inp.stackFound then none
  else
    match inp.nsName with
    | none => some "failed"
    | some _ =>
      if inp.nsCreateFails && ¬ (inp.environment == "development") then
        some "failed"
      else if inp.deployFails && ¬ (inp.environment == "development") then
        some "failed"
      else if inp.storageFails then some "failed"
      else some "ready"

/-! ## Auxiliary predicates -/

/-- `isinstance(·, dict)` on a parsed JSON value. -/
def isDict : JVal → Bool
  | .jobj _ => true
  | _ => false

/-- Whether an entry named `graph.py` occurs anywhere in a tree. -/
def containsGraphEntry : List FTree → Bool
  | [] => false
  | .file n :: rest => (n == "graph.py") || containsGraphEntry rest
  | .dir n cs :: rest =>
    (n == "graph.py") || containsGraphEntry cs || containsGraphEntry rest

/-- A file state in which `graph_id` is absent from the registry mapping:
the file is missing or empty (both read as the empty mapping), or holds a
dict whose `"graphs"` value is a dict without the key (or lacks the
`"graphs"` key altogether). -/
def idAbsentIn (st : FileState) (graph_id : String) : Bool :=
  match st with
  | .missing => true
  | .blank => true
  | .doc (.jobj kv) =>
    match lookupKey kv "graphs" with
    | some (.jobj g) => ¬ hasKey g graph_id
    | none => true
    | some _ => false
  | _ => false

/-! ## Dictionary lemmas -/

theorem hasKey_setKey_self (l : List (String × JVal)) (k : String) (v : JVal) :
    hasKey (setKey l k v) k = true := by
  induction l with
  | nil => simp [setKey, hasKey]
  | cons p rest ih =>
    by_cases h : p.1 == k
    · simp [setKey, hasKey, h]
    · simpa [setKey, hasKey, h] using ih

theorem lookupKey_setKey_self (l : List (String × JVal)) (k : String)
    (v : JVal) : lookupKey (setKey l k v) k = some v := by
  induction l with
  | nil => simp [setKey, lookupKey]
  | cons p rest ih =>
    by_cases h : p.1 == k
    · simp [setKey, lookupKey, h]
    · simpa [setKey, lookupKey, h] using ih

theorem hasKey_delKey_self (l : List (String × JVal)) (k : String) :
    hasKey (delKey l k) k = false := by
  induction l with
  | nil => rfl
  | cons p rest ih =>
    by_cases h : p.1 == k
    · show hasKey (List.filter _ (p :: rest)) k = false
      rw [List.filter_cons]
      simp only [bne, h, Bool.not_true, ite_false]
      exact ih
    · show hasKey (List.filter _ (p :: rest)) k = false
      rw [List.filter_cons]
      simp only [bne, Bool.not_eq_true'] at h
      simp only [bne, h, Bool.not_false, ite_true, hasKey, List.any_cons]
      simp only [h, Bool.false_or]
      exact ih

theorem hasKey_of_lookupKey {l : List (String × JVal)} {k : String}
    {v : JVal} (h : lookupKey l k = some v) : hasKey l k = true := by
  induction l with
  | nil => simp [lookupKey] at h
  | cons p rest ih =>
    by_cases hp : p.1 == k
    · simp [hasKey, hp]
    · simp [lookupKey, hp] at h
      simpa [hasKey, hp] using ih h

theorem read_json_unlocked_obj {kv : List (String × JVal)}
    (h : hasKey kv "graphs" = true) :
    read_json_unlocked (.doc (.jobj kv)) = .ok (.jobj kv) := by
  simp [read_json_unlocked, h]

theorem hasKey_false_of_lookupKey_none {l : List (String × JVal)}
    {k : String} (h : lookupKey l k = none) : hasKey l k = false := by
  induction l with
  | nil => rfl
  | cons p rest ih =>
    by_cases hp : p.1 == k
    · simp [lookupKey, hp] at h
    · simp only [lookupKey, hp, ite_false] at h
      simpa [hasKey, hp] using ih h

/-! ## Step lemmas for the locked registry mutations -/

theorem update_graph_entry_ok (fs : RegFS) (kv g : List (String × JVal))
    (graph_id graph_path : String)
    (hc : fs.canonical = .doc (.jobj kv))
    (hg : lookupKey kv "graphs" = some (.jobj g)) :
    update_graph_entry 0 noFaults graph_id graph_path fs
      = (.ok (), ⟨true, .doc (.jobj (setKey kv "graphs"
          (.jobj (setKey g graph_id (.jstr graph_path))))), .absent⟩) := by
  have hk : hasKey kv "graphs" = true := hasKey_of_lookupKey hg
  simp [update_graph_entry, hc, read_json_unlocked, hk, hg,
    write_aegra_json_unlocked, hasKey_setKey_self, noFaults,
    ensure_aegra_json_exists]

theorem remove_graph_entry_present (fs : RegFS)
    (kv g : List (String × JVal)) (graph_id : String)
    (hc : fs.canonical = .doc (.jobj kv))
    (hg : lookupKey kv "graphs" = some (.jobj g))
    (hk : hasKey g graph_id = true) :
    remove_graph_entry 0 noFaults graph_id fs
      = (.ok (), ⟨true, .doc (.jobj (setKey kv "graphs"
          (.jobj (delKey g graph_id)))), .absent⟩) := by
  have hkk : hasKey kv "graphs" = true := hasKey_of_lookupKey hg
  simp [remove_graph_entry, hc, read_json_unlocked, hkk, hg, hk,
    write_aegra_json_unlocked, hasKey_setKey_self, noFaults,
    ensure_aegra_json_exists]

theorem remove_graph_entry_absent (fs : RegFS) (graph_id : String)
    (h : idAbsentIn fs.canonical graph_id = true) :
    remove_graph_entry 0 noFaults graph_id fs = (.ok (), fs) := by
  cases hc : fs.canonical with
  | missing =>
    simp [remove_graph_entry, hc, read_json_unlocked, emptyDoc, lookupKey,
      hasKey]
  | blank =>
    simp [remove_graph_entry, hc, read_json_unlocked, emptyDoc, lookupKey,
      hasKey]
  | malformed => simp [idAbsentIn, hc] at h
  | doc j =>
    cases j with
    | jobj kv =>
      cases hg : lookupKey kv "graphs" with
      | none =>
        have hk : hasKey kv "graphs" = false :=
          hasKey_false_of_lookupKey_none hg
        have hnil : hasKey [] graph_id = false := rfl
        simp [remove_graph_entry, hc, read_json_unlocked, hk,
          lookupKey_setKey_self, hnil]
      | some v =>
        cases v with
        | jobj g =>
          have hkk : hasKey kv "graphs" = true := hasKey_of_lookupKey hg
          have habs : hasKey g graph_id = false := by
            simpa [idAbsentIn, hc, hg] using h
          simp [remove_graph_entry, hc, read_json_unlocked, hkk, hg, habs]
        | jnull => simp [idAbsentIn, hc, hg] at h
        | jbool b => simp [idAbsentIn, hc, hg] at h
        | jnum n => simp [idAbsentIn, hc, hg] at h
        | jstr s => simp [idAbsentIn, hc, hg] at h
        | jarr xs => simp [idAbsentIn, hc, hg] at h
    | jnull => simp [idAbsentIn, hc] at h
    | jbool b => simp [idAbsentIn, hc] at h
    | jnum n => simp [idAbsentIn, hc] at h
    | jstr s => simp [idAbsentIn, hc] at h
    | jarr xs => simp [idAbsentIn, hc] at h

/-! ## C5: `read()` on a missing registry file -/

/-- C5 counterexample: `read()` on a missing registry file does return the
empty mapping, but it has a side effect — the canonical file has been
created (initialized to the empty document) by the time the call returns,
so the claimed "does not create the registry file" is false. -/
theorem c5_counterexample :
    (read_aegra_json true 0 ⟨false, .missing, .absent⟩).1 = .ok emptyDoc ∧
    (read_aegra_json true 0 ⟨false, .missing, .absent⟩).2.canonical
      = .doc emptyDoc ∧
    FileState.doc emptyDoc ≠ .missing :=
  ⟨rfl, rfl, fun h => nomatch h⟩

/-- C5 amended: `read()` on a missing registry file returns the empty
mapping, but as a side effect first creates the registry directory and
initializes the registry file to the empty document (the existence-ensuring
step runs before the read). -/
theorem c5_read_missing_initializes (fs : RegFS) (w : Nat) (hw : w ≤ 10)
    (hc : fs.canonical = .missing) :
    read_aegra_json true w fs
      = (.ok emptyDoc,
         { fs with dirExists := true, canonical := .doc emptyDoc }) := by
  have hw' : ¬ (w > 10) := by omega
  simp [read_aegra_json, ensure_aegra_json_exists, hc, hw',
    read_json_unlocked, emptyDoc, hasKey]

/-- C5 witness. -/
theorem c5_witness :
    read_aegra_json true 0 ⟨false, .missing, .absent⟩
      = (.ok emptyDoc, ⟨true, .doc emptyDoc, .absent⟩) :=
  c5_read_missing_initializes ⟨false, .missing, .absent⟩ 0 (by omega) rfl

/-! ## C6: `validate()` mutation frame -/

/-- C6 counterexample: `validate()` on an existing but empty registry file
rewrites it to the empty document (and reports it valid), so the registry
file's content after the call differs from its content before. -/
theorem c6_counterexample :
    (validate_aegra_json ⟨true, .blank, .absent⟩).2.canonical
      = .doc emptyDoc ∧
    (validate_aegra_json ⟨true, .blank, .absent⟩).1 = (true, "") ∧
    FileState.doc emptyDoc ≠ .blank :=
  ⟨rfl, rfl, fun h => nomatch h⟩

/-- C6 amended: `validate()` returns a `(ok, reason)` structural check and
leaves the registry file's content unchanged when the file is missing,
malformed, or holds a parsed document; but when the file exists and is
empty, the existence-ensuring step inside the unlocked read reinitializes
it to the empty document (it may also create the parent directory). -/
theorem c6_validate_frame (fs : RegFS) :
    (fs.canonical = .missing →
      validate_aegra_json fs = ((false, "File does not exist"), fs)) ∧
    (fs.canonical = .malformed →
      (validate_aegra_json fs).2 = { fs with dirExists := true }) ∧
    (∀ j, fs.canonical = .doc j →
      (validate_aegra_json fs).2 = { fs with dirExists := true }) ∧
    (fs.canonical = .blank →
      (validate_aegra_json fs).2
        = { fs with dirExists := true, canonical := .doc emptyDoc }) := by
  refine ⟨fun hc => ?_, fun hc => ?_, fun j hc => ?_, fun hc => ?_⟩
  · simp [validate_aegra_json, hc]
  · simp [validate_aegra_json, read_aegra_json, ensure_aegra_json_exists, hc]
  · simp [validate_aegra_json, read_aegra_json, ensure_aegra_json_exists, hc]
  · simp [validate_aegra_json, read_aegra_json, ensure_aegra_json_exists, hc]

/-- C6 witness: on a malformed file, `validate()` leaves the content as it
was (only the directory-existence flag is ensured). -/
theorem c6_witness :
    (validate_aegra_json ⟨true, .malformed, .absent⟩).2
      = (⟨true, .malformed, .absent⟩ : RegFS) :=
  (c6_validate_frame ⟨true, .malformed, .absent⟩).2.1 rfl

/-! ## C1: crash safety of the registry write algorithm -/

/-- C1 counterexample: a registry mutation against a missing canonical file
whose serialization step fails leaves the canonical file changed — the
existence-ensuring step at the start of the unlocked write already created
it with the empty document — refuting "left byte-for-byte unchanged". -/
theorem c1_counterexample :
    (write_aegra_json 0 ⟨true, false, false, false⟩ [("graphs", .jobj [])]
        ⟨false, .missing, .absent⟩).1 = .error .ioError ∧
    (write_aegra_json 0 ⟨true, false, false, false⟩ [("graphs", .jobj [])]
        ⟨false, .missing, .absent⟩).2.canonical = .doc emptyDoc ∧
    FileState.doc emptyDoc ≠ .missing :=
  ⟨rfl, rfl, fun h => nomatch h⟩

/-- C1 amended: if serialization, fsync, or the re-parse validation fails,
the write aborts with the temp file removed and the canonical file exactly
as the existence-ensuring step left it — hence byte-for-byte unchanged
whenever it already existed with non-empty content, but initialized to the
empty document when it was missing or empty; on success the whole document
is replaced in the single rename. -/
theorem c1_atomic_write (fs : RegFS) (data : List (String × JVal))
    (f : WriteFaults) (w : Nat) (hw : w ≤ 30)
    (hg : hasKey data "graphs" = true) :
    (f.serializeFails = true ∨ f.fsyncFails = true ∨ f.reparseFails = true →
      ∃ e, write_aegra_json w f data fs
        = (.error e, { ensure_aegra_json_exists fs with temp := .absent })) ∧
    (fs.canonical ≠ .missing → fs.canonical ≠ .blank →
      (ensure_aegra_json_exists fs).canonical = fs.canonical) ∧
    (f = noFaults →
      write_aegra_json w f data fs
        = (.ok (), ⟨true, .doc (.jobj data), .absent⟩)) := by
  have hw' : ¬ (w > 30) := by omega
  refine ⟨fun hf => ?_, fun h1 h2 => ?_, fun hf => ?_⟩
  · by_cases h1 : f.serializeFails = true
    · exact ⟨.ioError,
        by simp [write_aegra_json, hw', write_aegra_json_unlocked, hg, h1]⟩
    · replace h1 : f.serializeFails = false := by
        simpa using h1
      by_cases h2 : f.fsyncFails = true
      · exact ⟨.ioError, by
          simp [write_aegra_json, hw', write_aegra_json_unlocked, hg, h1, h2]⟩
      · replace h2 : f.fsyncFails = false := by simpa using h2
        have h3 : f.reparseFails = true := by
          rcases hf with h | h | h
          · exact absurd h (by simp [h1])
          · exact absurd h (by simp [h2])
          · exact h
        exact ⟨.pyException "Temp file contains invalid JSON", by
          simp [write_aegra_json, hw', write_aegra_json_unlocked, hg, h1, h2,
            h3]⟩
  · cases hc : fs.canonical with
    | missing => exact absurd hc h1
    | blank => exact absurd hc h2
    | malformed => simp [ensure_aegra_json_exists, hc]
    | doc j => simp [ensure_aegra_json_exists, hc]
  · subst hf
    simp [write_aegra_json, hw', write_aegra_json_unlocked, hg, noFaults,
      ensure_aegra_json_exists]

/-- C1 witness: against an existing valid canonical file, a failed
serialization aborts with an error, the canonical content untouched and the
temp file removed. -/
theorem c1_witness :
    ∃ e, write_aegra_json 0 ⟨true, false, false, false⟩
        [("graphs", .jobj [])] ⟨true, .doc emptyDoc, .absent⟩
      = (.error e, ⟨true, .doc emptyDoc, .absent⟩) :=
  (c1_atomic_write ⟨true, .doc emptyDoc, .absent⟩ [("graphs", .jobj [])]
    ⟨true, false, false, false⟩ 0 (by omega) rfl).1 (Or.inl rfl)

/-! ## C10: the `"graphs"` document-shape invariant -/

/-- C10 counterexample: the module only enforces presence of the
`"graphs"` key, not that its value is a dictionary — a successful read
returns `{"graphs": 5}` as-is, and the write path accepts and persists it,
refuting the claimed `{"graphs": {...}}` shape invariant. -/
theorem c10_counterexample :
    read_json_unlocked (.doc (.jobj [("graphs", .jnum 5)]))
      = .ok (.jobj [("graphs", .jnum 5)]) ∧
    isDict (.jnum 5) = false ∧
    (write_aegra_json 0 noFaults [("graphs", .jnum 5)]
        ⟨true, .doc emptyDoc, .absent⟩).1 = .ok () ∧
    (write_aegra_json 0 noFaults [("graphs", .jnum 5)]
        ⟨true, .doc emptyDoc, .absent⟩).2.canonical
      = .doc (.jobj [("graphs", .jnum 5)]) :=
  ⟨rfl, rfl, rfl, rfl⟩

/-- C10 amended: every dict a successful read returns has the `"graphs"`
key (inserted empty when the stored JSON lacks it), and every write path
rejects data lacking a `"graphs"` key with `ValueError`, leaving the files
untouched; presence of the key — not dictionary-shape of its value — is
the invariant the module maintains. -/
theorem c10_graphs_key_invariant :
    (∀ (st : FileState) (kv : List (String × JVal)),
       read_json_unlocked st = .ok (.jobj kv) → hasKey kv "graphs" = true) ∧
    (∀ (w : Nat) (f : WriteFaults) (data : List (String × JVal))
       (fs : RegFS), w ≤ 30 → hasKey data "graphs" = false →
       write_aegra_json w f data fs
         = (.error (.valueError "Data must have 'graphs' key"), fs)) := by
  constructor
  · intro st kv h
    cases st with
    | missing =>
      simp [read_json_unlocked, emptyDoc] at h
      subst h
      rfl
    | blank =>
      simp [read_json_unlocked, emptyDoc] at h
      subst h
      rfl
    | malformed => simp [read_json_unlocked] at h
    | doc j =>
      cases j with
      | jobj kv0 =>
        by_cases hk : hasKey kv0 "graphs" = true
        · simp [read_json_unlocked, hk] at h
          subst h
          exact hk
        · replace hk : hasKey kv0 "graphs" = false := by simpa using hk
          simp [read_json_unlocked, hk] at h
          subst h
          exact hasKey_setKey_self kv0 "graphs" (.jobj [])
      | jarr xs =>
        simp only [read_json_unlocked] at h
        split at h
        · exact JVal.noConfusion (Except.ok.inj h)
        · exact Except.noConfusion h
      | jstr s =>
        simp only [read_json_unlocked] at h
        split at h
        · exact JVal.noConfusion (Except.ok.inj h)
        · exact Except.noConfusion h
      | jnum n => simp [read_json_unlocked] at h
      | jbool b => simp [read_json_unlocked] at h
      | jnull => simp [read_json_unlocked] at h
  · intro w f data fs hw hg
    have hw' : ¬ (w > 30) := by omega
    simp [write_aegra_json, hw', write_aegra_json_unlocked, hg]

/-- C10 witness. -/
theorem c10_witness :
    hasKey [("graphs", JVal.jobj [])] "graphs" = true ∧
    write_aegra_json 0 noFaults [] ⟨true, .doc emptyDoc, .absent⟩
      = (.error (.valueError "Data must have 'graphs' key"),
         ⟨true, .doc emptyDoc, .absent⟩) :=
  ⟨c10_graphs_key_invariant.1 .missing _ rfl,
   c10_graphs_key_invariant.2 0 noFaults [] ⟨true, .doc emptyDoc, .absent⟩
     (by omega) rfl⟩

/-! ## C8: lock bounds and error distinctness -/

/-- C8: every mutating registry call (`write`, `update`, `remove`) waits on
the cooperative lock with a 30-second bound and a consistency-sensitive
`read` with a 10-second bound; exceeding the bound raises the dedicated
lock-timeout error while a malformed file raises the decode (corruption)
error, and the two error values are never equal. -/
theorem c8_lock_discipline :
    (∀ (w : Nat) (f : WriteFaults) (data : List (String × JVal))
       (fs : RegFS), w > 30 → write_aegra_json w f data fs
         = (.error (.pyException "Timeout acquiring lock to write aegra.json"),
            fs)) ∧
    (∀ (w : Nat) (f : WriteFaults) (gid gp : String) (fs : RegFS), w > 30 →
       update_graph_entry w f gid gp fs
         = (.error (.pyException
              "Timeout acquiring lock to update aegra.json"), fs)) ∧
    (∀ (w : Nat) (f : WriteFaults) (gid : String) (fs : RegFS), w > 30 →
       remove_graph_entry w f gid fs
         = (.error (.pyException
              "Timeout acquiring lock to remove from aegra.json"), fs)) ∧
    (∀ (w : Nat) (fs : RegFS), w > 10 → read_aegra_json true w fs
         = (.error (.pyException "Timeout acquiring lock to read aegra.json"),
            ensure_aegra_json_exists fs)) ∧
    (∀ (w : Nat) (f : WriteFaults) (data : List (String × JVal))
       (fs : RegFS), w ≤ 30 →
       write_aegra_json w f data fs = write_aegra_json_unlocked f data fs) ∧
    (∀ (w : Nat) (fs : RegFS), w ≤ 10 →
       read_aegra_json true w fs
         = (read_json_unlocked (ensure_aegra_json_exists fs).canonical,
            ensure_aegra_json_exists fs)) ∧
    (∀ (w : Nat) (fs : RegFS), w ≤ 10 → fs.canonical = .malformed →
       (read_aegra_json true w fs).1 = .error RegErr.jsonDecodeError) ∧
    (∀ msg : String, RegErr.pyException msg ≠ RegErr.jsonDecodeError) := by
  refine ⟨fun w f data fs hw => ?_, fun w f gid gp fs hw => ?_,
    fun w f gid fs hw => ?_, fun w fs hw => ?_, fun w f data fs hw => ?_,
    fun w fs hw => ?_, fun w fs hw hc => ?_, fun msg h => nomatch h⟩
  · simp [write_aegra_json, hw]
  · simp [update_graph_entry, hw]
  · simp [remove_graph_entry, hw]
  · simp [read_aegra_json, hw]
  · simp [write_aegra_json, Nat.not_lt.mpr hw]
  · simp [read_aegra_json, Nat.not_lt.mpr hw]
  · simp [read_aegra_json, Nat.not_lt.mpr hw, ensure_aegra_json_exists, hc,
      read_json_unlocked]

/-- C8 witness. -/
theorem c8_witness :
    write_aegra_json 31 noFaults [("graphs", .jobj [])]
        ⟨true, .doc emptyDoc, .absent⟩
      = (.error (.pyException "Timeout acquiring lock to write aegra.json"),
         ⟨true, .doc emptyDoc, .absent⟩) ∧
    read_aegra_json true 11 ⟨true, .doc emptyDoc, .absent⟩
      = (.error (.pyException "Timeout acquiring lock to read aegra.json"),
         ⟨true, .doc emptyDoc, .absent⟩) ∧
    (read_aegra_json true 0 ⟨true, .malformed, .absent⟩).1
      = .error RegErr.jsonDecodeError :=
  ⟨c8_lock_discipline.1 31 noFaults _ _ (by omega),
   c8_lock_discipline.2.2.2.1 11 _ (by omega),
   c8_lock_discipline.2.2.2.2.2.2.1 0 _ (by omega) rfl⟩

/-! ## C9: upsert followed by remove, and remove of an absent id -/

/-- C9: after `upsert(id, path)` followed by `remove(id)`, a `read()`
returns a mapping with no entry for `id`; and `remove(id)` when `id` is
absent from the registry leaves the filesystem state entirely unchanged
(no rewrite of the registry file). -/
theorem c9_upsert_remove_roundtrip :
    (∀ (fs : RegFS) (kv g : List (String × JVal)) (graph_id path : String),
       fs.canonical = .doc (.jobj kv) →
       lookupKey kv "graphs" = some (.jobj g) →
       ∃ kv2 g2,
         (update_graph_entry 0 noFaults graph_id path fs).1 = .ok () ∧
         (remove_graph_entry 0 noFaults graph_id
             (update_graph_entry 0 noFaults graph_id path fs).2).1
           = .ok () ∧
         (read_aegra_json true 0
             (remove_graph_entry 0 noFaults graph_id
               (update_graph_entry 0 noFaults graph_id path fs).2).2).1
           = .ok (.jobj kv2) ∧
         lookupKey kv2 "graphs" = some (.jobj g2) ∧
         hasKey g2 graph_id = false) ∧
    (∀ (fs : RegFS) (graph_id : String),
       idAbsentIn fs.canonical graph_id = true →
       remove_graph_entry 0 noFaults graph_id fs = (.ok (), fs)) := by
  constructor
  · intro fs kv g graph_id path hc hg
    have hu := update_graph_entry_ok fs kv g graph_id path hc hg
    have hr := remove_graph_entry_present
      ⟨true, .doc (.jobj (setKey kv "graphs"
        (.jobj (setKey g graph_id (.jstr path))))), .absent⟩
      (setKey kv "graphs" (.jobj (setKey g graph_id (.jstr path))))
      (setKey g graph_id (.jstr path)) graph_id rfl
      (lookupKey_setKey_self kv "graphs" _)
      (hasKey_setKey_self g graph_id _)
    refine ⟨setKey (setKey kv "graphs"
        (.jobj (setKey g graph_id (.jstr path)))) "graphs"
        (.jobj (delKey (setKey g graph_id (.jstr path)) graph_id)),
      delKey (setKey g graph_id (.jstr path)) graph_id,
      ?_, ?_, ?_, ?_, ?_⟩
    · rw [hu]
    · rw [hu, hr]
    · rw [hu, hr]
      simp [read_aegra_json, ensure_aegra_json_exists, read_json_unlocked,
        hasKey_setKey_self]
    · exact lookupKey_setKey_self _ "graphs" _
    · exact hasKey_delKey_self _ graph_id
  · exact remove_graph_entry_absent

/-- C9 witness: a concrete upsert/remove round trip, and a concrete no-op
remove against a registry whose mapping lacks the id. -/
theorem c9_witness :
    (∃ kv2 g2,
       (update_graph_entry 0 noFaults "s1__a1" "p1"
           ⟨true, .doc emptyDoc, .absent⟩).1 = .ok () ∧
       (remove_graph_entry 0 noFaults "s1__a1"
           (update_graph_entry 0 noFaults "s1__a1" "p1"
             ⟨true, .doc emptyDoc, .absent⟩).2).1 = .ok () ∧
       (read_aegra_json true 0
           (remove_graph_entry 0 noFaults "s1__a1"
             (update_graph_entry 0 noFaults "s1__a1" "p1"
               ⟨true, .doc emptyDoc, .absent⟩).2).2).1 = .ok (.jobj kv2) ∧
       lookupKey kv2 "graphs" = some (.jobj g2) ∧
       hasKey g2 "s1__a1" = false) ∧
    remove_graph_entry 0 noFaults "s1__a1" ⟨true, .doc emptyDoc, .absent⟩
      = (.ok (), ⟨true, .doc emptyDoc, .absent⟩) :=
  ⟨c9_upsert_remove_roundtrip.1 ⟨true, .doc emptyDoc, .absent⟩
      [("graphs", .jobj [])] [] "s1__a1" "p1" rfl rfl,
   c9_upsert_remove_roundtrip.2 ⟨true, .doc emptyDoc, .absent⟩ "s1__a1" rfl⟩

/-! ## C2: entry-point slug detection -/

/-- C2: slug detection on the first `graph.py` that `rglob` yields — a
nested entry file gives the extraction root's direct child on its path; an
entry file at the root gives the single top-level directory's name when
exactly one exists and the fixed default `"agent"` otherwise; no entry file
anywhere fails with the not-found error. -/
theorem c2_detect_agent_slug :
    (∀ (cs : List FTree) (c : String) (p : List String)
       (rest : List (List String)),
       rglobRoot cs = (c :: p) :: rest → p ≠ [] →
       detect_agent_slug cs = .ok c) ∧
    (∀ (cs : List FTree) (rest : List (List String)) (t : String),
       rglobRoot cs = ["graph.py"] :: rest → topLevelDirs cs = [t] →
       detect_agent_slug cs = .ok t) ∧
    (∀ (cs : List FTree) (rest : List (List String)),
       rglobRoot cs = ["graph.py"] :: rest →
       (topLevelDirs cs).length ≠ 1 →
       detect_agent_slug cs = .ok "agent") ∧
    (∀ cs : List FTree, rglobRoot cs = [] →
       detect_agent_slug cs
         = .error "graph.py not found in extracted zip") := by
  refine ⟨fun cs c p rest hroot hp => ?_, fun cs rest t hroot htop => ?_,
    fun cs rest hroot htop => ?_, fun cs hroot => ?_⟩
  · cases p with
    | nil => exact absurd rfl hp
    | cons q qs => simp [detect_agent_slug, hroot]
  · simp [detect_agent_slug, hroot, htop]
  · cases htl : topLevelDirs cs with
    | nil => simp [detect_agent_slug, hroot, htl]
    | cons t ts =>
      cases ts with
      | nil => exact absurd (by simp [htl]) htop
      | cons t2 ts2 => simp [detect_agent_slug, hroot, htl]
  · simp [detect_agent_slug, hroot]

/-- C2 witness: the four behaviours at concrete trees — `foo/graph.py`
gives `foo`; root `graph.py` beside a single dir `bar/` gives `bar`; root
`graph.py` with no top-level dir gives the default; no `graph.py` fails. -/
theorem c2_witness :
    detect_agent_slug [.dir "foo" [.file "graph.py"]] = .ok "foo" ∧
    detect_agent_slug [.file "graph.py", .dir "bar" []] = .ok "bar" ∧
    detect_agent_slug [.file "graph.py"] = .ok "agent" ∧
    detect_agent_slug [.file "other.py"]
      = .error "graph.py not found in extracted zip" :=
  ⟨c2_detect_agent_slug.1 _ "foo" ["graph.py"] []
     (by simp [rglobRoot, rglobChildren, matchesHere, entryName])
     (fun h => nomatch h),
   c2_detect_agent_slug.2.1 _ [] "bar"
     (by simp [rglobRoot, rglobChildren, matchesHere, entryName]) rfl,
   c2_detect_agent_slug.2.2.1 _ []
     (by simp [rglobRoot, rglobChildren, matchesHere, entryName])
     (fun h => nomatch h),
   c2_detect_agent_slug.2.2.2 _
     (by simp [rglobRoot, rglobChildren, matchesHere, entryName])⟩

/-! ## C3: agent creation from an archive with no entry point -/

/-- C3: when the uploaded archive contains no `graph.py` anywhere, the
agent-creation task ends with status `failed`, the registry filesystem is
exactly as before the run (no entry was ever added), directory cleanup is
attempted best-effort (the directory survives only when the cleanup itself
fails), and no exception escapes the task. -/
theorem c3_agent_creation_no_entrypoint (inp : AgentRunInput) (fs : RegFS)
    (dir0 : Bool) (h1 : inp.agentFound = true)
    (h2 : inp.agentStatus = "creating") (h3 : inp.tempExists = true)
    (h4 : inp.tempSize ≠ 0) (h5 : inp.zipValid = true)
    (h6 : rglobRoot inp.zipTree = []) :
    complete_agent_creation inp fs dir0
      = { finalStatus := some "failed", reg := fs,
          agentDirExists := inp.cleanupFails, cleanupAttempted := true,
          raised := false } := by
  have h4' : (inp.tempSize == 0) = false := by simpa using h4
  have hd : detect_agent_slug inp.zipTree
      = .error "graph.py not found in extracted zip" := by
    simp [detect_agent_slug, h6]
  simp [complete_agent_creation, h1, h2, h3, h4', h5, hd, agentFailOutcome]

/-- C3 witness. -/
theorem c3_witness :
    complete_agent_creation
        ⟨true, "creating", "s1", "a1", true, 5, true, [.file "main.py"],
         false, 0, noFaults⟩
        ⟨true, .doc emptyDoc, .absent⟩ false
      = { finalStatus := some "failed", reg := ⟨true, .doc emptyDoc, .absent⟩,
          agentDirExists := false, cleanupAttempted := true,
          raised := false } :=
  c3_agent_creation_no_entrypoint
    ⟨true, "creating", "s1", "a1", true, 5, true, [.file "main.py"],
     false, 0, noFaults⟩
    ⟨true, .doc emptyDoc, .absent⟩ false rfl rfl rfl
    (fun h => nomatch h) rfl
    (by simp [rglobRoot, rglobChildren, matchesHere, entryName])

/-! ## C7: stack creation in permissive mode and storage failure -/

/-- C7: in the `development` (permissive) environment the stack-creation
task tolerates namespace-creation and workload-deployment failures and
still reaches `ready` when storage allocation succeeds; in every
environment, a storage-allocation failure means the stack never becomes
`ready` and — whenever the stack row exists — ends `failed`. -/
theorem c7_stack_creation_modes :
    (∀ (n : String) (nsF depF : Bool),
       complete_stack_creation ⟨true, some n, "development", nsF, depF, false⟩
         = some "ready") ∧
    (∀ inp : StackCreateInput, inp.storageFails = true →
       complete_stack_creation inp ≠ some "ready") ∧
    (∀ inp : StackCreateInput, inp.storageFails = true →
       inp.stackFound = true →
       complete_stack_creation inp = some "failed") := by
  refine ⟨fun n nsF depF => ?_, fun inp h => ?_, fun inp h hf => ?_⟩
  · simp [complete_stack_creation]
  · obtain ⟨sf, ns, env, n1, d1, st⟩ := inp
    cases h
    cases sf <;> cases ns <;> simp [complete_stack_creation]
  · obtain ⟨sf, ns, env, n1, d1, st⟩ := inp
    cases h
    cases hf
    cases ns <;> simp [complete_stack_creation]

/-- C7 witness: both control-plane steps failing in development still give
`ready`; a storage failure in a non-development environment gives `failed`,
not `ready`. -/
theorem c7_witness :
    complete_stack_creation ⟨true, some "ns", "development", true, true,
        false⟩ = some "ready" ∧
    complete_stack_creation ⟨true, some "ns", "production", false, false,
        true⟩ ≠ some "ready" ∧
    complete_stack_creation ⟨true, some "ns", "production", false, false,
        true⟩ = some "failed" :=
  ⟨c7_stack_creation_modes.1 "ns" true true,
   c7_stack_creation_modes.2.1 _ rfl,
   c7_stack_creation_modes.2.2 _ rfl rfl⟩

/-! ## C4: stack deletion order and best-effort per-agent steps -/

/-- C4 counterexample: deleting a stack with two agents attempts one
registry-entry removal per agent but never a per-agent directory deletion —
the only directory removal is the single stack-level one — refuting the
claimed per-agent "deletes that agent's directory". -/
theorem c4_counterexample :
    (complete_stack_deletion
        ⟨true, "s1", some "ns1",
         [⟨"a1", some "g1", 0, noFaults⟩, ⟨"a2", some "g2", 0, noFaults⟩],
         false⟩ false false
        ⟨true, .doc (.jobj [("graphs",
          .jobj [("g1", .jstr "p1"), ("g2", .jstr "p2")])]), .absent⟩).trace
      = [.removeRegistryEntry "g1", .removeRegistryEntry "g2",
         .validateRegistry, .deleteNamespace "ns1", .deleteStackDir "s1",
         .deleteDbRow "s1"] ∧
    DelAction.deleteAgentDir "a1" ∉
      (complete_stack_deletion
        ⟨true, "s1", some "ns1",
         [⟨"a1", some "g1", 0, noFaults⟩, ⟨"a2", some "g2", 0, noFaults⟩],
         false⟩ false false
        ⟨true, .doc (.jobj [("graphs",
          .jobj [("g1", .jstr "p1"), ("g2", .jstr "p2")])]), .absent⟩).trace ∧
    DelAction.deleteAgentDir "a2" ∉
      (complete_stack_deletion
        ⟨true, "s1", some "ns1",
         [⟨"a1", some "g1", 0, noFaults⟩, ⟨"a2", some "g2", 0, noFaults⟩],
         false⟩ false false
        ⟨true, .doc (.jobj [("graphs",
          .jobj [("g1", .jstr "p1"), ("g2", .jstr "p2")])]), .absent⟩).trace
      := by
  refine ⟨rfl, ?_, ?_⟩ <;> decide

/-- The attempted-action order of the per-agent loop depends only on the
agent rows, not on the registry state or any injected fault. -/
theorem stackDelLoop_trace (ags : List AgentRow) (fs : RegFS) :
    (stackDelLoop ags fs).1
      = ags.filterMap (fun a => a.graphId.map .removeRegistryEntry) := by
  induction ags generalizing fs with
  | nil => rfl
  | cons a rest ih =>
    cases hg : a.graphId with
    | none => simp [stackDelLoop, hg, ih]
    | some g => simp [stackDelLoop, hg, ih]

/-- C4 amended: stack deletion attempts, in order, one registry-entry
removal per child agent that has a `graph_id` (best-effort: the order is
unchanged by any registry state or injected fault), then the registry
validation, then namespace deletion whenever a namespace is recorded, then
a single stack-level directory deletion (which contains every agent's
directory), and removes the database row last. -/
theorem c4_stack_deletion_order (inp : StackDelInput) (df1 df2 : Bool)
    (fs : RegFS) (h : inp.stackFound = true) :
    (complete_stack_deletion inp df1 df2 fs).trace
      = inp.agents.filterMap (fun a => a.graphId.map .removeRegistryEntry)
        ++ [.validateRegistry]
        ++ (match inp.nsName with
            | some n => [.deleteNamespace n]
            | none => [])
        ++ [.deleteStackDir inp.stackId, .deleteDbRow inp.stackId] ∧
    (∃ t, (complete_stack_deletion inp df1 df2 fs).trace
        = t ++ [.deleteDbRow inp.stackId]) ∧
    (inp.dbDeleteFails = false →
      (complete_stack_deletion inp df1 df2 fs).dbRowRemoved = true) := by
  have htr : (complete_stack_deletion inp df1 df2 fs).trace
      = inp.agents.filterMap (fun a => a.graphId.map .removeRegistryEntry)
        ++ [.validateRegistry]
        ++ (match inp.nsName with
            | some n => [.deleteNamespace n]
            | none => [])
        ++ [.deleteStackDir inp.stackId, .deleteDbRow inp.stackId] := by
    cases hdb : inp.dbDeleteFails <;>
      simp [complete_stack_deletion, h, hdb, stackDelLoop_trace]
  refine ⟨htr, ⟨inp.agents.filterMap
      (fun a => a.graphId.map .removeRegistryEntry)
        ++ [.validateRegistry]
        ++ (match inp.nsName with
            | some n => [.deleteNamespace n]
            | none => [])
        ++ [.deleteStackDir inp.stackId], ?_⟩, fun hdb => ?_⟩
  · rw [htr]
    simp
  · simp [complete_stack_deletion, h, hdb]

/-- C4 witness (for the amended theorem): the two-agent run, with the
second agent's registry removal hitting a lock timeout and the directory
deletion failing, still attempts every step in order and removes the row
last. -/
theorem c4_witness :
    (complete_stack_deletion
        ⟨true, "s2", some "ns2",
         [⟨"b1", some "h1", 0, noFaults⟩, ⟨"b2", some "h2", 31, noFaults⟩],
         false⟩ true true ⟨true, .doc emptyDoc, .absent⟩).trace
      = [.removeRegistryEntry "h1", .removeRegistryEntry "h2",
         .validateRegistry, .deleteNamespace "ns2", .deleteStackDir "s2",
         .deleteDbRow "s2"] ∧
    (complete_stack_deletion
        ⟨true, "s2", some "ns2",
         [⟨"b1", some "h1", 0, noFaults⟩, ⟨"b2", some "h2", 31, noFaults⟩],
         false⟩ true true ⟨true, .doc emptyDoc, .absent⟩).dbRowRemoved
      = true :=
  ⟨(c4_stack_deletion_order
      ⟨true, "s2", some "ns2",
       [⟨"b1", some "h1", 0, noFaults⟩, ⟨"b2", some "h2", 31, noFaults⟩],
       false⟩ true true ⟨true, .doc emptyDoc, .absent⟩ rfl).1,
   (c4_stack_deletion_order
      ⟨true, "s2", some "ns2",
       [⟨"b1", some "h1", 0, noFaults⟩, ⟨"b2", some "h2", 31, noFaults⟩],
       false⟩ true true ⟨true, .doc emptyDoc, .absent⟩ rfl).2.2 rfl⟩

end LaunchStack
